import Mathlib

/-!
# TapTapBug — spawn-and-lifecycle controller, shallow embedding

Shallow embedding of `src/bugTap/BugTap.ts` (the BugTap game controller).
Pure state passing replaces the in-place mutation of the TypeScript class:
the fields of `BugTapState` are the fields of the `BugTap` instance together
with the observable sinks (UI text, persisted store, sound-cue count) that
the handlers write to.  External collaborators that are not part of the
repository sources (the `Game` engine base class, `BoundingBox`, the entity
managers, `getRandomNumber`, the persistent store) are modelled from the
spec, each marked as such in its doc comment.
-/

namespace TapTapBug

/-- Modelled from the spec: the GameHost's tri-state run mode
`{NotStarted, Running, Paused}` (the `Game` engine class is not in src/). -/
inductive RunMode where
  | notStarted
  | running
  | paused
deriving DecidableEq

/-- Modelled from the spec: `isRunning() → bool` of the GameHost. -/
def RunMode.isRunning (rm : RunMode) : Bool := rm == RunMode.running

/-- Modelled from the spec: `isPaused() → bool` of the GameHost. -/
def RunMode.isPaused (rm : RunMode) : Bool := rm == RunMode.paused

/-- Modelled from the spec: the GameHost's `pause()` primitive; the spec's
state machine only transitions `Running → Paused`. -/
def RunMode.pauseMode (rm : RunMode) : RunMode :=
  if rm = RunMode.running then RunMode.paused else rm

/-- Modelled from the spec: the GameHost's `resume()` primitive; the spec's
state machine only transitions `Paused → Running`. -/
def RunMode.resumeMode (rm : RunMode) : RunMode :=
  if rm = RunMode.paused then RunMode.running else rm

/-- Modelled from the spec: `start()` transitions to Running. -/
def RunMode.startMode (_ : RunMode) : RunMode := RunMode.running

/-- Modelled from the spec: an entity's bounding box (position + size);
the `BoundingBox` class is not in src/. -/
structure BoundingBox where
  x : Int
  y : Int
  width : Int
  height : Int
deriving DecidableEq

/-- Modelled from the spec: point-in-rectangle containment, the
"bounding box hit test" used by the tap resolver. -/
def BoundingBox.isOverlappingPoint (b : BoundingBox) (px py : Int) : Bool :=
  b.x ≤ px && px ≤ b.x + b.width && b.y ≤ py && py ≤ b.y + b.height

/-- Modelled from the spec: a Bug entity has `alive : boolean` (initially
true), a point value (`integer ≥ 0`) and a bounding box; the `Bug` class is
not in src/. -/
structure Bug where
  alive : Bool
  points : Nat
  boundingBox : BoundingBox
deriving DecidableEq

def Bug.isAlive (b : Bug) : Bool := b.alive

def Bug.getPoints (b : Bug) : Nat := b.points

def Bug.setDead (b : Bug) : Bug := { b with alive := false }

/-- Modelled from the spec: a Food entity with an immutable position. -/
structure Food where
  x : Int
  y : Int
deriving DecidableEq

/-- The variants of the host's active entity collection: Bug, Food, the
cursor, and the transient floating score marker (`Point` in the source). -/
inductive GameObject where
  | bug (b : Bug)
  | food (f : Food)
  | cursor
  | point (value : Nat) (x y : Int)
deriving DecidableEq

/-- Modelled from the spec: the persistent key→string store (opaque
key-value store; `addToStore`/`clearStore` of the engine are not in src/).
A write conses the new pair; `lookup` reads the most recent write. -/
structure Store where
  entries : List (String × String)
deriving DecidableEq

def clearStore : Store := ⟨[]⟩

def addToStore (key value : String) (s : Store) : Store :=
  ⟨(key, value) :: s.entries⟩

def Store.lookupKey (s : Store) (key : String) : Option String :=
  s.entries.lookup key

/-- Modelled from the spec: `getRandomNumber` produces a uniformly
distributed integer in an inclusive bound; the draw is made explicit as an
entropy argument `r`. -/
def getRandomNumber (lo hi r : Nat) : Nat := lo + r % (hi - lo + 1)

/-- `MIN_BUGS_TO_SPAWN` in `BugTap.ts`. -/
def MIN_BUGS_TO_SPAWN : Nat := 1
/-- `MAX_BUGS_TO_SPAWN` in `BugTap.ts`. -/
def MAX_BUGS_TO_SPAWN : Nat := 3
/-- `MIN_SPAWN_INTERVAL` in `BugTap.ts`. -/
def MIN_SPAWN_INTERVAL : Nat := 800
/-- `MAX_SPAWN_INTERVAL` in `BugTap.ts`. -/
def MAX_SPAWN_INTERVAL : Nat := 1500
/-- `AMOUNT_OF_FOOD` in `BugTap.ts`. -/
def AMOUNT_OF_FOOD : Nat := 10

/-- The observable state of a `BugTap` instance: its private fields
(`_time`, `_score`, `_food`), the host's active entity collection, the run
mode, and the observable sinks (store, UI texts, pause-button icon, count
of sound-cue triggers). -/
structure BugTapState where
  runMode : RunMode
  gameObjects : List GameObject
  time : Nat
  score : Nat
  food : List Food
  store : Store
  scoreText : String
  timeText : String
  pauseButtonIcon : String
  soundPlays : Nat
deriving DecidableEq

/-- `addGameObject`: insertion at the end of the active collection
(insertion order). -/
def addGameObject (o : GameObject) (s : BugTapState) : BugTapState :=
  { s with gameObjects := s.gameObjects ++ [o] }

/-- The `BugTap` constructor: adds the cursor, wires handlers, and calls
`clearStore()`.  `prior` is whatever the persistent store held before
construction; the constructor discards it. -/
def bugTapConstructor (_prior : Store) : BugTapState :=
  { runMode := RunMode.notStarted
    gameObjects := [GameObject.cursor]
    time := 0
    score := 0
    food := []
    store := clearStore
    scoreText := ""
    timeText := ""
    pauseButtonIcon := ""
    soundPlays := 0 }

/-- `_initFood`: generate food (the generated list is the external
`FoodManager.generate` result, passed in), hand it to the bug manager
(affects only bug movement, outside this model) and add it to the game. -/
def initFood (generated : List Food) (s : BugTapState) : BugTapState :=
  { s with food := generated
           gameObjects := s.gameObjects ++ generated.map GameObject.food }

/-- Accumulator of `_canvasOnMouseClick`'s scan: the processed entities,
the score markers added during the scan, and the scoring sinks. -/
structure TapScan where
  objects : List GameObject
  markers : List GameObject
  score : Nat
  soundPlays : Nat
  store : Store
  scoreText : String
deriving DecidableEq

/-- The `for (const gameObject of this.getGameObjects())` loop of
`_canvasOnMouseClick`: skip non-Bugs, skip bugs whose bounding box misses
`(px, py)`, skip dead bugs; otherwise play the sound, add the bug's points
to the score, create a floating `Point` marker at the bug's position,
update the score text, persist the score, and mark the bug dead — then
continue with the rest of the collection. -/
def tapScanLoop (px py : Int) :
    List GameObject → Nat → Nat → Store → String → TapScan
  | [], score, sound, st, text => ⟨[], [], score, sound, st, text⟩
  | o :: rest, score, sound, st, text =>
    match o with
    | GameObject.bug b =>
      if !(b.boundingBox.isOverlappingPoint px py) then
        let r := tapScanLoop px py rest score sound st text
        { r with objects := GameObject.bug b :: r.objects }
      else if !(b.isAlive) then
        let r := tapScanLoop px py rest score sound st text
        { r with objects := GameObject.bug b :: r.objects }
      else
        let points := b.getPoints
        let score1 := score + points
        let text1 := "Score: " ++ toString score1
        let st1 := addToStore "score" (toString score1) st
        let r := tapScanLoop px py rest score1 (sound + 1) st1 text1
        { r with
            objects := GameObject.bug b.setDead :: r.objects
            markers :=
              GameObject.point points b.boundingBox.x b.boundingBox.y
                :: r.markers }
    | o =>
      let r := tapScanLoop px py rest score sound st text
      { r with objects := o :: r.objects }

/-- `_canvasOnMouseClick`: no-op unless running; otherwise scan the active
collection, scoring every alive bug whose bounding box contains the click.
The markers created during the scan end up appended after the originals
(each was added via `addGameObject` as the scan progressed). -/
def canvasOnMouseClick (px py : Int) (s : BugTapState) : BugTapState :=
  if !(s.runMode.isRunning) then s
  else
    let r := tapScanLoop px py s.gameObjects s.score s.soundPlays
               s.store s.scoreText
    { s with gameObjects := r.objects ++ r.markers
             score := r.score
             soundPlays := r.soundPlays
             store := r.store
             scoreText := r.scoreText }

/-- `_spawnBug` via `BugManager.spawn`: the manager (not in src/) is
modelled from the spec as producing bugs with `alive` initially true; `gen`
supplies the point value and bounding box of the i-th bug of a wave. -/
def spawnBug (gen : Nat → Bug) (i : Nat) : GameObject :=
  GameObject.bug { gen i with alive := true }

/-- One cycle of `spawnBugRandomly` in `_spawnBugsRandomly`: if running and
food exists, draw `numBugsToSpawn` and spawn that many bugs; then
unconditionally draw the next interval and reschedule (the returned `Nat`
is the delay handed to `setTimeout`). -/
def spawnCycle (gen : Nat → Bug) (rBugs rDelay : Nat) (s : BugTapState) :
    BugTapState × Nat :=
  let s1 :=
    if s.runMode.isRunning && decide (0 < s.food.length) then
      let numBugsToSpawn :=
        getRandomNumber MIN_BUGS_TO_SPAWN MAX_BUGS_TO_SPAWN rBugs
      { s with gameObjects :=
          s.gameObjects ++ (List.range numBugsToSpawn).map (spawnBug gen) }
    else s
  (s1, getRandomNumber MIN_SPAWN_INTERVAL MAX_SPAWN_INTERVAL rDelay)

/-- The state part of iterating spawn cycles, one `(rBugs, rDelay)` entropy
pair per cycle. -/
def spawnCycles (gen : Nat → Bug) (seeds : List (Nat × Nat))
    (s : BugTapState) : BugTapState :=
  seeds.foldl (fun st rs => (spawnCycle gen rs.1 rs.2 st).1) s

/-- `formatSeconds` in `_startTimeElapsed`: `minutes:seconds`, seconds
zero-padded to two digits when below 10. -/
def formatSeconds (seconds : Nat) : String :=
  let minutes := seconds / 60
  let remainingSeconds := seconds % 60
  let paddedSeconds :=
    if remainingSeconds < 10 then "0" ++ toString remainingSeconds
    else toString remainingSeconds
  toString minutes ++ ":" ++ paddedSeconds

/-- One cycle of `startTime` in `_startTimeElapsed`: if not paused,
increment `_time`, render it and persist it; always reschedule after
1000 ms (the returned delay). -/
def timeTick (s : BugTapState) : BugTapState × Nat :=
  let s1 :=
    if !(s.runMode.isPaused) then
      let t := s.time + 1
      { s with time := t
               timeText := "Time: " ++ formatSeconds t
               store := addToStore "time" (toString t) s.store }
    else s
  (s1, 1000)

/-- The state part of one time tick. -/
def timeTickState (s : BugTapState) : BugTapState := (timeTick s).1

/-- `_startButtonOnClick`: `start()` (run mode → Running), `_initFood()`,
the immediate first spawn cycle of `_spawnBugsRandomly()`, and the
immediate first tick of `_startTimeElapsed()`.  Returns the state together
with the two delays scheduled for the next spawn cycle and next tick. -/
def startButtonOnClick (generated : List Food) (gen : Nat → Bug)
    (rBugs rDelay : Nat) (s : BugTapState) : BugTapState × Nat × Nat :=
  let s1 := { s with runMode := s.runMode.startMode }
  let s2 := initFood generated s1
  let (s3, spawnDelay) := spawnCycle gen rBugs rDelay s2
  let (s4, tickDelay) := timeTick s3
  (s4, spawnDelay, tickDelay)

/-- Which pause/resume primitive `_pauseButtonOnClick` invoked. -/
inductive ToggleCall where
  | calledResume
  | calledPause
deriving DecidableEq

/-- `_pauseButtonOnClick`: `this.isPaused() ? this.resume() : this.pause()`
— unguarded on the game being Running — then swap the button icon based on
the new mode. -/
def pauseButtonOnClick (s : BugTapState) : BugTapState × ToggleCall :=
  let rmCall :=
    if s.runMode.isPaused then (s.runMode.resumeMode, ToggleCall.calledResume)
    else (s.runMode.pauseMode, ToggleCall.calledPause)
  let rm := rmCall.1
  let icon :=
    if rm.isPaused then "assets/graphics/play.png"
    else if rm.isRunning then "assets/graphics/pause.png"
    else s.pauseButtonIcon
  ({ s with runMode := rm, pauseButtonIcon := icon }, rmCall.2)

/-- The keydown handler wired in `_initEventHandlers`: Space triggers
`_pauseButtonOnClick`, every other key does nothing. -/
def onKeyDown (code : String) (s : BugTapState) :
    BugTapState × Option ToggleCall :=
  if code == "Space" then
    let r := pauseButtonOnClick s
    (r.1, some r.2)
  else (s, none)

/-- Folding a list of taps (pointer-down coordinates) over the state. -/
def foldTaps (taps : List (Int × Int)) (s : BugTapState) : BugTapState :=
  taps.foldl (fun st p => canvasOnMouseClick p.1 p.2 st) s

/-! ## Derived notions used to state the claims -/

/-- The bugs of the collection that a tap at `(px, py)` hits: those that
are bugs, alive, and whose bounding box contains the point. -/
def hitBugs (px py : Int) (objs : List GameObject) : List Bug :=
  objs.filterMap fun o =>
    match o with
    | GameObject.bug b =>
      if b.boundingBox.isOverlappingPoint px py && b.alive then some b
      else none
    | _ => none

/-- What a tap at `(px, py)` does to one entity of the collection: an alive
bug whose box contains the point is marked dead, everything else is kept. -/
def tapKill (px py : Int) (o : GameObject) : GameObject :=
  match o with
  | GameObject.bug b =>
    if b.boundingBox.isOverlappingPoint px py && b.alive then
      GameObject.bug { b with alive := false }
    else GameObject.bug b
  | o => o

/-- The score marker a scored bug leaves behind. -/
def bugMarker (b : Bug) : GameObject :=
  GameObject.point b.points b.boundingBox.x b.boundingBox.y

/-- The points a position contributes when comparing two snapshots of the
collection: a bug alive before and dead after contributes its point value. -/
def contrib (o o1 : GameObject) : Nat :=
  match o, o1 with
  | GameObject.bug b, GameObject.bug b1 =>
    if b.alive && !b1.alive then b.points else 0
  | _, _ => 0

/-- Sum of point values of the bugs that transitioned alive→dead between
two snapshots of the collection (compared positionally). -/
def killedPoints (objs objs1 : List GameObject) : Nat :=
  (List.zipWith contrib objs objs1).sum

/-- Positional dead-bug preservation between two snapshots: a dead bug
stays exactly where it was, still dead. -/
def deadPreserved (objs objs1 : List GameObject) : Prop :=
  ∀ (i : Nat) (b : Bug), objs[i]? = some (GameObject.bug b) →
    b.alive = false → objs1[i]? = some (GameObject.bug b)

/-- What one tap does to one entity, folded over a tap sequence. -/
def killChain (taps : List (Int × Int)) (o : GameObject) : GameObject :=
  taps.foldl (fun acc p => tapKill p.1 p.2 acc) o

/-- `tapKill` restricted to the bug payload. -/
def tapKillBug (px py : Int) (b : Bug) : Bug :=
  if b.boundingBox.isOverlappingPoint px py && b.alive then
    { b with alive := false }
  else b

/-- `killChain` restricted to the bug payload. -/
def killChainBug (taps : List (Int × Int)) (b : Bug) : Bug :=
  taps.foldl (fun acc p => tapKillBug p.1 p.2 acc) b

/-- A concrete state with two alive bugs whose bounding boxes overlap and
both contain the point `(3, 3)`. -/
def twoBugState : BugTapState :=
  { runMode := RunMode.running
    gameObjects :=
      [GameObject.bug ⟨true, 5, ⟨0, 0, 10, 10⟩⟩,
       GameObject.bug ⟨true, 7, ⟨2, 2, 10, 10⟩⟩]
    time := 0
    score := 0
    food := [⟨50, 50⟩]
    store := clearStore
    scoreText := ""
    timeText := ""
    pauseButtonIcon := ""
    soundPlays := 0 }

/-- A concrete state that is paused, with one alive bug. -/
def pausedState : BugTapState :=
  { twoBugState with runMode := RunMode.paused }

/-- A concrete not-started state (as right after construction). -/
def notStartedState : BugTapState :=
  bugTapConstructor ⟨[("score", "999"), ("time", "7")]⟩

/-- A concrete not-started state whose persistent store still holds stale
entries from an earlier session. -/
def staleStoreState : BugTapState :=
  { runMode := RunMode.notStarted
    gameObjects := [GameObject.cursor]
    time := 0
    score := 0
    food := []
    store := ⟨[("score", "999")]⟩
    scoreText := ""
    timeText := ""
    pauseButtonIcon := ""
    soundPlays := 0 }

/-- A fixed bug generator used by concrete witnesses. -/
def genBug : Nat → Bug := fun _ => ⟨true, 1, ⟨0, 0, 1, 1⟩⟩

/-! ## Lemmas about the tap scan -/

theorem tapScanLoop_spec (px py : Int) :
    ∀ (objs : List GameObject) (score sound : Nat) (st : Store)
      (text : String),
      (tapScanLoop px py objs score sound st text).objects =
          objs.map (tapKill px py) ∧
      (tapScanLoop px py objs score sound st text).markers =
          (hitBugs px py objs).map bugMarker ∧
      (tapScanLoop px py objs score sound st text).score =
          score + ((hitBugs px py objs).map Bug.points).sum ∧
      (tapScanLoop px py objs score sound st text).soundPlays =
          sound + (hitBugs px py objs).length := by
  intro objs
  induction objs with
  | nil => intro score sound st text; simp [tapScanLoop, hitBugs]
  | cons o rest ih =>
    intro score sound st text
    cases o with
    | bug b =>
      by_cases hov : b.boundingBox.isOverlappingPoint px py = true
      · by_cases hal : b.alive = true
        · have h := ih (score + b.points) (sound + 1)
            (addToStore "score" (toString (score + b.points)) st)
            ("Score: " ++ toString (score + b.points))
          simp only [tapScanLoop, hov, hal, Bug.isAlive, Bug.getPoints,
            Bug.setDead, Bool.not_true, Bool.false_eq_true, if_false,
            if_true, hitBugs, List.filterMap_cons, tapKill, bugMarker,
            Bool.and_self, List.map_cons, List.sum_cons, List.length_cons]
          refine ⟨by simp [h.1, tapKill, hov, hal, Bug.setDead], ?_, ?_, ?_⟩
          · simp [h.2.1, hitBugs, bugMarker]
          · have := h.2.2.1
            simp only [hitBugs] at this
            omega
          · have := h.2.2.2
            simp only [hitBugs] at this
            omega
        · have h := ih score sound st text
          have hal' : b.alive = false := by
            cases hb : b.alive
            · rfl
            · exact absurd hb hal
          simp only [tapScanLoop, hov, hal', Bug.isAlive, Bool.not_true,
            Bool.not_false, if_true, Bool.false_eq_true, if_false]
          refine ⟨?_, ?_, ?_, ?_⟩
          · simp [h.1, tapKill, hov, hal']
          · simp [h.2.1, hitBugs, List.filterMap_cons, hov, hal']
          · simp [h.2.2.1, hitBugs, List.filterMap_cons, hov, hal']
          · simp [h.2.2.2, hitBugs, List.filterMap_cons, hov, hal']
      · have h := ih score sound st text
        have hov' : b.boundingBox.isOverlappingPoint px py = false := by
          cases hb : b.boundingBox.isOverlappingPoint px py
          · rfl
          · exact absurd hb hov
        simp only [tapScanLoop, hov', Bool.not_false, if_true]
        refine ⟨?_, ?_, ?_, ?_⟩
        · simp [h.1, tapKill, hov']
        · simp [h.2.1, hitBugs, List.filterMap_cons, hov']
        · simp [h.2.2.1, hitBugs, List.filterMap_cons, hov']
        · simp [h.2.2.2, hitBugs, List.filterMap_cons, hov']
    | food f =>
      have h := ih score sound st text
      simp [tapScanLoop, h.1, h.2.1, h.2.2.1, h.2.2.2, hitBugs,
        List.filterMap_cons, tapKill]
    | cursor =>
      have h := ih score sound st text
      simp [tapScanLoop, h.1, h.2.1, h.2.2.1, h.2.2.2, hitBugs,
        List.filterMap_cons, tapKill]
    | point v x y =>
      have h := ih score sound st text
      simp [tapScanLoop, h.1, h.2.1, h.2.2.1, h.2.2.2, hitBugs,
        List.filterMap_cons, tapKill]

/-- C1: while running, a tap at `(px, py)` scans the whole active
collection in order: every alive bug whose bounding box contains the point
is scored (its point value added to the score, one sound cue, a marker
created) and marked dead, and the scan continues past each match, so all
overlapping hits of a single tap are scored. -/
theorem tap_scores_every_overlapping_alive_bug
    (s : BugTapState) (px py : Int) (h : s.runMode = RunMode.running) :
    (canvasOnMouseClick px py s).gameObjects =
        s.gameObjects.map (tapKill px py) ++
          (hitBugs px py s.gameObjects).map bugMarker ∧
    (canvasOnMouseClick px py s).score =
        s.score + ((hitBugs px py s.gameObjects).map Bug.points).sum ∧
    (canvasOnMouseClick px py s).soundPlays =
        s.soundPlays + (hitBugs px py s.gameObjects).length := by
  have hrun : s.runMode.isRunning = true := by
    simp [RunMode.isRunning, h]
  have h1 := tapScanLoop_spec px py s.gameObjects s.score s.soundPlays
    s.store s.scoreText
  simp only [canvasOnMouseClick, hrun, Bool.not_true, Bool.false_eq_true,
    if_false]
  exact ⟨by rw [h1.1, h1.2.1], h1.2.2.1, h1.2.2.2⟩

/-- Witness for C1: tapping `(3, 3)` on `twoBugState` scores both
overlapping bugs — the score rises by `5 + 7 = 12` and the sound cue fires
twice. -/
theorem tap_scores_every_overlapping_alive_bug_witness :
    (canvasOnMouseClick 3 3 twoBugState).score = 12 ∧
    (canvasOnMouseClick 3 3 twoBugState).soundPlays = 2 := by
  have h := tap_scores_every_overlapping_alive_bug twoBugState 3 3 rfl
  refine ⟨?_, ?_⟩
  · rw [h.2.1]; decide
  · rw [h.2.2]; decide

/-! ## Lemmas for at-most-once scoring -/

theorem tapKill_of_dead (px py : Int) (b : Bug) (h : b.alive = false) :
    tapKill px py (GameObject.bug b) = GameObject.bug b := by
  simp [tapKill, h]

theorem hitBugs_alive (px py : Int) (objs : List GameObject) :
    ∀ b ∈ hitBugs px py objs, b.alive = true := by
  intro b hb
  induction objs with
  | nil => simp [hitBugs] at hb
  | cons o rest ih =>
    cases o with
    | bug b1 =>
      by_cases hc :
          (b1.boundingBox.isOverlappingPoint px py && b1.alive) = true
      · simp only [hitBugs, List.filterMap_cons, hc, if_true] at hb
        rcases List.mem_cons.mp hb with h1 | h1
        · subst h1
          exact (Bool.and_elim_right hc)
        · exact ih (by simpa [hitBugs] using h1)
      · simp only [hitBugs, List.filterMap_cons, hc] at hb
        exact ih (by simpa [hitBugs] using hb)
    | food f =>
      simp only [hitBugs, List.filterMap_cons] at hb
      exact ih (by simpa [hitBugs] using hb)
    | cursor =>
      simp only [hitBugs, List.filterMap_cons] at hb
      exact ih (by simpa [hitBugs] using hb)
    | point v x y =>
      simp only [hitBugs, List.filterMap_cons] at hb
      exact ih (by simpa [hitBugs] using hb)

theorem hitBugs_map_tapKill (px py : Int) (objs : List GameObject) :
    hitBugs px py (objs.map (tapKill px py)) = [] := by
  induction objs with
  | nil => simp [hitBugs]
  | cons o rest ih =>
    cases o with
    | bug b =>
      by_cases hov : b.boundingBox.isOverlappingPoint px py = true
      · by_cases hal : b.alive = true
        · simp [hitBugs, List.filterMap_cons, tapKill, hov, hal, ih,
            hitBugs] at ih ⊢
          simpa [hitBugs] using ih
        · have hal' : b.alive = false := by
            cases hb : b.alive
            · rfl
            · exact absurd hb hal
          simp only [List.map_cons, tapKill, hov, hal', Bool.and_false,
            Bool.false_eq_true, if_false, hitBugs, List.filterMap_cons]
          simpa [hitBugs] using ih
      · have hov' : b.boundingBox.isOverlappingPoint px py = false := by
          cases hb : b.boundingBox.isOverlappingPoint px py
          · rfl
          · exact absurd hb hov
        simp only [List.map_cons, tapKill, hov', Bool.false_and,
          Bool.false_eq_true, if_false, hitBugs, List.filterMap_cons]
        simpa [hitBugs] using ih
    | food f => simpa [hitBugs, tapKill] using ih
    | cursor => simpa [hitBugs, tapKill] using ih
    | point v x y => simpa [hitBugs, tapKill] using ih

theorem hitBugs_map_bugMarker (px py : Int) (l : List Bug) :
    hitBugs px py (l.map bugMarker) = [] := by
  induction l with
  | nil => simp [hitBugs]
  | cons b rest ih => simp [hitBugs, bugMarker]

theorem hitBugs_append (px py : Int) (l1 l2 : List GameObject) :
    hitBugs px py (l1 ++ l2) = hitBugs px py l1 ++ hitBugs px py l2 := by
  simp [hitBugs, List.filterMap_append]

theorem tapScanLoop_of_no_hit (px py : Int) :
    ∀ (objs : List GameObject) (score sound : Nat) (st : Store)
      (text : String), hitBugs px py objs = [] →
      tapScanLoop px py objs score sound st text =
        ⟨objs, [], score, sound, st, text⟩ := by
  intro objs
  induction objs with
  | nil => intro score sound st text _; simp [tapScanLoop]
  | cons o rest ih =>
    intro score sound st text hno
    cases o with
    | bug b =>
      by_cases hov : b.boundingBox.isOverlappingPoint px py = true
      · by_cases hal : b.alive = true
        · exfalso
          simp [hitBugs, List.filterMap_cons, hov, hal] at hno
        · have hal' : b.alive = false := by
            cases hb : b.alive
            · rfl
            · exact absurd hb hal
          have hrest : hitBugs px py rest = [] := by
            simpa [hitBugs, List.filterMap_cons, hov, hal'] using hno
          simp [tapScanLoop, hov, Bug.isAlive, hal',
            ih score sound st text hrest]
      · have hov' : b.boundingBox.isOverlappingPoint px py = false := by
          cases hb : b.boundingBox.isOverlappingPoint px py
          · rfl
          · exact absurd hb hov
        have hrest : hitBugs px py rest = [] := by
          simpa [hitBugs, List.filterMap_cons, hov'] using hno
        simp [tapScanLoop, hov', ih score sound st text hrest]
    | food f =>
      have hrest : hitBugs px py rest = [] := by
        simpa [hitBugs, List.filterMap_cons] using hno
      simp [tapScanLoop, ih score sound st text hrest]
    | cursor =>
      have hrest : hitBugs px py rest = [] := by
        simpa [hitBugs, List.filterMap_cons] using hno
      simp [tapScanLoop, ih score sound st text hrest]
    | point v x y =>
      have hrest : hitBugs px py rest = [] := by
        simpa [hitBugs, List.filterMap_cons] using hno
      simp [tapScanLoop, ih score sound st text hrest]

theorem canvasOnMouseClick_of_no_hit (px py : Int) (s : BugTapState)
    (h : hitBugs px py s.gameObjects = []) :
    canvasOnMouseClick px py s = s := by
  by_cases hrun : s.runMode.isRunning = true
  · simp [canvasOnMouseClick, hrun,
      tapScanLoop_of_no_hit px py s.gameObjects s.score s.soundPlays
        s.store s.scoreText h]
  · simp [canvasOnMouseClick, Bool.eq_false_iff.mpr hrun]

theorem canvasOnMouseClick_runMode (px py : Int) (s : BugTapState) :
    (canvasOnMouseClick px py s).runMode = s.runMode := by
  by_cases hrun : s.runMode.isRunning = true
  · simp [canvasOnMouseClick, hrun]
  · simp [canvasOnMouseClick, Bool.eq_false_iff.mpr hrun]

theorem deadPreserved_refl (objs : List GameObject) :
    deadPreserved objs objs := fun _ _ h _ => h

theorem deadPreserved_append (objs l : List GameObject) :
    deadPreserved objs (objs ++ l) := by
  intro i b hi hdead
  have hlen : i < objs.length := by
    by_contra hge
    rw [List.getElem?_eq_none (Nat.le_of_not_lt hge)] at hi
    exact Option.noConfusion hi
  rw [List.getElem?_append_left hlen]
  exact hi

theorem deadPreserved_map_tapKill (px py : Int) (objs l : List GameObject) :
    deadPreserved objs (objs.map (tapKill px py) ++ l) := by
  intro i b hi hdead
  have hlen : i < (objs.map (tapKill px py)).length := by
    rw [List.length_map]
    by_contra hge
    rw [List.getElem?_eq_none (Nat.le_of_not_lt hge)] at hi
    exact Option.noConfusion hi
  rw [List.getElem?_append_left hlen, List.getElem?_map, hi]
  simp [tapKill_of_dead px py b hdead]

theorem canvasOnMouseClick_gameObjects_of_running (px py : Int)
    (s : BugTapState) (h : s.runMode = RunMode.running) :
    (canvasOnMouseClick px py s).gameObjects =
      s.gameObjects.map (tapKill px py) ++
        (hitBugs px py s.gameObjects).map bugMarker := by
  have hrun : s.runMode.isRunning = true := by
    simp [RunMode.isRunning, h]
  have h1 := tapScanLoop_spec px py s.gameObjects s.score s.soundPlays
    s.store s.scoreText
  simp only [canvasOnMouseClick, hrun, Bool.not_true, Bool.false_eq_true,
    if_false]
  rw [h1.1, h1.2.1]

theorem spawnCycle_gameObjects_append (gen : Nat → Bug)
    (rBugs rDelay : Nat) (s : BugTapState) :
    ∃ l, (spawnCycle gen rBugs rDelay s).1.gameObjects =
      s.gameObjects ++ l := by
  by_cases hc : (s.runMode.isRunning && decide (0 < s.food.length)) = true
  · exact ⟨(List.range
      (getRandomNumber MIN_BUGS_TO_SPAWN MAX_BUGS_TO_SPAWN rBugs)).map
        (spawnBug gen), by simp [spawnCycle, hc]⟩
  · exact ⟨[], by simp [spawnCycle, Bool.eq_false_iff.mpr hc]⟩

theorem timeTickState_gameObjects (s : BugTapState) :
    (timeTickState s).gameObjects = s.gameObjects := by
  by_cases hp : s.runMode.isPaused = true
  · simp [timeTickState, timeTick, hp]
  · simp [timeTickState, timeTick, Bool.eq_false_iff.mpr hp]

/-- C2: scoring is at-most-once.  A bug killed by a tap stays dead: dead
bugs are preserved in place by taps, spawn cycles and time ticks (nothing
ever sets `alive` back to true), only alive bugs are ever in the hit set of
a tap, and repeating a tap at the same point is a no-op — the second tap
produces no score change, no sound cue, no state change at all. -/
theorem scoring_at_most_once (s : BugTapState) (px py : Int)
    (gen : Nat → Bug) (rBugs rDelay : Nat)
    (h : s.runMode = RunMode.running) :
    canvasOnMouseClick px py (canvasOnMouseClick px py s) =
      canvasOnMouseClick px py s ∧
    deadPreserved s.gameObjects (canvasOnMouseClick px py s).gameObjects ∧
    deadPreserved s.gameObjects
      ((spawnCycle gen rBugs rDelay s).1).gameObjects ∧
    deadPreserved s.gameObjects (timeTickState s).gameObjects ∧
    (∀ b ∈ hitBugs px py s.gameObjects, b.alive = true) := by
  refine ⟨?_, ?_, ?_, ?_, hitBugs_alive px py s.gameObjects⟩
  · apply canvasOnMouseClick_of_no_hit
    rw [canvasOnMouseClick_gameObjects_of_running px py s h,
      hitBugs_append, hitBugs_map_tapKill, hitBugs_map_bugMarker]
    simp
  · rw [canvasOnMouseClick_gameObjects_of_running px py s h]
    exact deadPreserved_map_tapKill px py s.gameObjects _
  · obtain ⟨l, hl⟩ := spawnCycle_gameObjects_append gen rBugs rDelay s
    rw [hl]
    exact deadPreserved_append s.gameObjects l
  · rw [timeTickState_gameObjects]
    exact deadPreserved_refl s.gameObjects

/-- Witness for C2: on `twoBugState`, tapping `(3, 3)` twice equals
tapping it once — the second tap changes nothing. -/
theorem scoring_at_most_once_witness :
    canvasOnMouseClick 3 3 (canvasOnMouseClick 3 3 twoBugState) =
      canvasOnMouseClick 3 3 twoBugState :=
  (scoring_at_most_once twoBugState 3 3
    (fun _ => ⟨true, 1, ⟨0, 0, 1, 1⟩⟩) 0 0 rfl).1

/-! ## Lemmas for score accounting over tap sequences -/

theorem tapKill_bug_eq (px py : Int) (b : Bug) :
    tapKill px py (GameObject.bug b) =
      GameObject.bug (tapKillBug px py b) := by
  by_cases hc : (b.boundingBox.isOverlappingPoint px py && b.alive) = true
  · simp [tapKill, tapKillBug, hc]
  · simp [tapKill, tapKillBug, Bool.eq_false_iff.mpr hc]

theorem tapKillBug_points (px py : Int) (b : Bug) :
    (tapKillBug px py b).points = b.points := by
  by_cases hc : (b.boundingBox.isOverlappingPoint px py && b.alive) = true
  · simp [tapKillBug, hc]
  · simp [tapKillBug, Bool.eq_false_iff.mpr hc]

theorem tapKillBug_of_dead (px py : Int) (b : Bug) (h : b.alive = false) :
    tapKillBug px py b = b := by
  simp [tapKillBug, h]

theorem killChainBug_cons (p : Int × Int) (t : List (Int × Int)) (b : Bug) :
    killChainBug (p :: t) b = killChainBug t (tapKillBug p.1 p.2 b) := by
  simp [killChainBug, List.foldl_cons]

theorem killChainBug_points (taps : List (Int × Int)) :
    ∀ b : Bug, (killChainBug taps b).points = b.points := by
  induction taps with
  | nil => intro b; simp [killChainBug]
  | cons p t ih =>
    intro b
    rw [killChainBug_cons, ih, tapKillBug_points]

theorem killChainBug_of_dead (taps : List (Int × Int)) :
    ∀ b : Bug, b.alive = false → killChainBug taps b = b := by
  induction taps with
  | nil => intro b _; simp [killChainBug]
  | cons p t ih =>
    intro b hb
    rw [killChainBug_cons, tapKillBug_of_dead p.1 p.2 b hb, ih b hb]

theorem killChain_bug_eq (taps : List (Int × Int)) :
    ∀ b : Bug, killChain taps (GameObject.bug b) =
      GameObject.bug (killChainBug taps b) := by
  induction taps with
  | nil => intro b; simp [killChain, killChainBug]
  | cons p t ih =>
    intro b
    simp only [killChain, killChainBug, List.foldl_cons] at ih ⊢
    rw [tapKill_bug_eq, ih]

theorem killChain_cons (p : Int × Int) (t : List (Int × Int))
    (o : GameObject) :
    killChain (p :: t) o = killChain t (tapKill p.1 p.2 o) := by
  simp [killChain, List.foldl_cons]

theorem killChain_food (taps : List (Int × Int)) (f : Food) :
    killChain taps (GameObject.food f) = GameObject.food f := by
  induction taps with
  | nil => simp [killChain]
  | cons p t ih => rw [killChain_cons]; exact ih

theorem killChain_cursor (taps : List (Int × Int)) :
    killChain taps GameObject.cursor = GameObject.cursor := by
  induction taps with
  | nil => simp [killChain]
  | cons p t ih => rw [killChain_cons]; exact ih

theorem killChain_point (taps : List (Int × Int)) (v : Nat) (x y : Int) :
    killChain taps (GameObject.point v x y) = GameObject.point v x y := by
  induction taps with
  | nil => simp [killChain]
  | cons p t ih => rw [killChain_cons]; exact ih

theorem contrib_self (o : GameObject) : contrib o o = 0 := by
  cases o with
  | bug b => by_cases hb : b.alive = true <;> simp [contrib, hb]
  | food f => rfl
  | cursor => rfl
  | point v x y => rfl

theorem sum_map_add (l : List GameObject) (f g : GameObject → Nat) :
    (l.map (fun o => f o + g o)).sum = (l.map f).sum + (l.map g).sum := by
  induction l with
  | nil => simp
  | cons o rest ih => simp [ih]; omega

theorem zipWith_contrib_map (f : GameObject → GameObject) :
    ∀ (objs rest : List GameObject),
      List.zipWith contrib objs (objs.map f ++ rest) =
        objs.map (fun o => contrib o (f o)) := by
  intro objs
  induction objs with
  | nil => intro rest; simp
  | cons o t ih => intro rest; simp [List.zipWith, ih rest]

theorem killedPoints_self (objs : List GameObject) :
    killedPoints objs objs = 0 := by
  induction objs with
  | nil => simp [killedPoints]
  | cons o rest ih =>
    simp only [killedPoints, List.zipWith, List.sum_cons] at ih ⊢
    rw [contrib_self, ih]

theorem hitBugs_cons_bug (px py : Int) (b : Bug)
    (rest : List GameObject) :
    hitBugs px py (GameObject.bug b :: rest) =
      if b.boundingBox.isOverlappingPoint px py && b.alive then
        b :: hitBugs px py rest
      else hitBugs px py rest := by
  by_cases hc : (b.boundingBox.isOverlappingPoint px py && b.alive) = true
  · obtain ⟨h1, h2⟩ := Bool.and_eq_true_iff.mp hc
    simp [hitBugs, List.filterMap_cons, h1, h2, hc]
  · rcases Bool.and_eq_false_iff.mp (Bool.eq_false_iff.mpr hc) with h1 | h1
    · simp [hitBugs, List.filterMap_cons, h1, Bool.eq_false_iff.mpr hc]
    · simp [hitBugs, List.filterMap_cons, h1, Bool.eq_false_iff.mpr hc]

theorem hitBugs_cons_food (px py : Int) (f : Food)
    (rest : List GameObject) :
    hitBugs px py (GameObject.food f :: rest) = hitBugs px py rest := by
  simp [hitBugs, List.filterMap_cons]

theorem hitBugs_cons_cursor (px py : Int) (rest : List GameObject) :
    hitBugs px py (GameObject.cursor :: rest) = hitBugs px py rest := by
  simp [hitBugs, List.filterMap_cons]

theorem hitBugs_cons_point (px py : Int) (v : Nat) (x y : Int)
    (rest : List GameObject) :
    hitBugs px py (GameObject.point v x y :: rest) = hitBugs px py rest := by
  simp [hitBugs, List.filterMap_cons]

theorem hit_sum_eq_contrib_sum (px py : Int) :
    ∀ objs : List GameObject,
      ((hitBugs px py objs).map Bug.points).sum =
        (objs.map (fun o => contrib o (tapKill px py o))).sum := by
  intro objs
  induction objs with
  | nil => simp [hitBugs]
  | cons o rest ih =>
    cases o with
    | bug b =>
      rw [hitBugs_cons_bug, List.map_cons, List.sum_cons]
      by_cases hov : b.boundingBox.isOverlappingPoint px py = true
      · by_cases hal : b.alive = true
        · have hg : contrib (GameObject.bug b)
              (tapKill px py (GameObject.bug b)) = b.points := by
            simp [contrib, tapKill, hov, hal]
          rw [if_pos (by rw [hov, hal]; rfl), hg, List.map_cons,
            List.sum_cons, ih]
        · have hal' : b.alive = false := by
            cases hb : b.alive
            · rfl
            · exact absurd hb hal
          have hg : contrib (GameObject.bug b)
              (tapKill px py (GameObject.bug b)) = 0 := by
            simp [contrib, tapKill, hov, hal']
          rw [if_neg (by rw [hov, hal']; simp), hg, ih]
          omega
      · have hov' : b.boundingBox.isOverlappingPoint px py = false := by
          cases hb : b.boundingBox.isOverlappingPoint px py
          · rfl
          · exact absurd hb hov
        have hg : contrib (GameObject.bug b)
            (tapKill px py (GameObject.bug b)) = 0 := by
          by_cases hal : b.alive = true
          · simp [contrib, tapKill, hov', hal]
          · have hal' : b.alive = false := by
              cases hb : b.alive
              · rfl
              · exact absurd hb hal
            simp [contrib, tapKill, hov', hal']
        rw [if_neg (by rw [hov']; simp), hg, ih]
        omega
    | food f =>
      rw [hitBugs_cons_food, List.map_cons, List.sum_cons]
      have hg : contrib (GameObject.food f)
          (tapKill px py (GameObject.food f)) = 0 := rfl
      rw [hg, ih]
      omega
    | cursor =>
      rw [hitBugs_cons_cursor, List.map_cons, List.sum_cons]
      have hg : contrib GameObject.cursor
          (tapKill px py GameObject.cursor) = 0 := rfl
      rw [hg, ih]
      omega
    | point v x y =>
      rw [hitBugs_cons_point, List.map_cons, List.sum_cons]
      have hg : contrib (GameObject.point v x y)
          (tapKill px py (GameObject.point v x y)) = 0 := rfl
      rw [hg, ih]
      omega

theorem canvasOnMouseClick_of_not_running (px py : Int) (s : BugTapState)
    (h : ¬ s.runMode = RunMode.running) :
    canvasOnMouseClick px py s = s := by
  have hrun : s.runMode.isRunning = false := by
    cases hm : s.runMode
    · rfl
    · exact absurd hm h
    · rfl
  simp [canvasOnMouseClick, hrun]

theorem canvasOnMouseClick_score_of_running (px py : Int)
    (s : BugTapState) (h : s.runMode = RunMode.running) :
    (canvasOnMouseClick px py s).score =
      s.score +
        (s.gameObjects.map (fun o => contrib o (tapKill px py o))).sum := by
  have hrun : s.runMode.isRunning = true := by
    simp [RunMode.isRunning, h]
  have h1 := tapScanLoop_spec px py s.gameObjects s.score s.soundPlays
    s.store s.scoreText
  simp only [canvasOnMouseClick, hrun, Bool.not_true, Bool.false_eq_true,
    if_false]
  rw [h1.2.2.1, hit_sum_eq_contrib_sum]

theorem contrib_step (px py : Int) (t : List (Int × Int)) (o : GameObject) :
    contrib o (tapKill px py o) +
        contrib (tapKill px py o) (killChain t (tapKill px py o)) =
      contrib o (killChain t (tapKill px py o)) := by
  cases o with
  | bug b =>
    rw [tapKill_bug_eq, killChain_bug_eq]
    by_cases hal : b.alive = true
    · by_cases hov : b.boundingBox.isOverlappingPoint px py = true
      · have hb1 : tapKillBug px py b = { b with alive := false } := by
          simp [tapKillBug, hov, hal]
        rw [hb1]
        rw [killChainBug_of_dead t { b with alive := false } rfl]
        simp [contrib, hal]
      · have hb1 : tapKillBug px py b = b := by
          simp [tapKillBug, Bool.eq_false_iff.mpr hov]
        rw [hb1]
        by_cases h2 : (killChainBug t b).alive = true
        · simp [contrib, hal, h2]
        · have h2' : (killChainBug t b).alive = false := by
            cases hb : (killChainBug t b).alive
            · rfl
            · exact absurd hb h2
          simp [contrib, hal, h2']
    · have hal' : b.alive = false := by
        cases hb : b.alive
        · rfl
        · exact absurd hb hal
      rw [tapKillBug_of_dead px py b hal', killChainBug_of_dead t b hal']
      simp [contrib, hal']
  | food f => simp [tapKill, killChain_food, contrib]
  | cursor => simp [tapKill, killChain_cursor, contrib]
  | point v x y => simp [tapKill, killChain_point, contrib]

theorem foldTaps_cons (p : Int × Int) (t : List (Int × Int))
    (s : BugTapState) :
    foldTaps (p :: t) s = foldTaps t (canvasOnMouseClick p.1 p.2 s) := by
  simp [foldTaps, List.foldl_cons]

theorem foldTaps_runMode (taps : List (Int × Int)) :
    ∀ s : BugTapState, (foldTaps taps s).runMode = s.runMode := by
  induction taps with
  | nil => intro s; simp [foldTaps]
  | cons p t ih =>
    intro s
    rw [foldTaps_cons, ih, canvasOnMouseClick_runMode]

theorem foldTaps_of_not_running (taps : List (Int × Int)) :
    ∀ s : BugTapState, ¬ s.runMode = RunMode.running →
      foldTaps taps s = s := by
  induction taps with
  | nil => intro s _; simp [foldTaps]
  | cons p t ih =>
    intro s h
    rw [foldTaps_cons, canvasOnMouseClick_of_not_running p.1 p.2 s h]
    exact ih s h

theorem foldTaps_gameObjects_shape (taps : List (Int × Int)) :
    ∀ s : BugTapState, s.runMode = RunMode.running →
      ∃ rest, (foldTaps taps s).gameObjects =
        s.gameObjects.map (killChain taps) ++ rest := by
  induction taps with
  | nil =>
    intro s _
    refine ⟨[], ?_⟩
    have hid : killChain ([] : List (Int × Int)) = id :=
      funext fun o => rfl
    simp [foldTaps, hid]
  | cons p t ih =>
    intro s h
    have h1 : (canvasOnMouseClick p.1 p.2 s).runMode = RunMode.running := by
      rw [canvasOnMouseClick_runMode]; exact h
    obtain ⟨rest, hrest⟩ := ih (canvasOnMouseClick p.1 p.2 s) h1
    rw [foldTaps_cons]
    refine ⟨(((hitBugs p.1 p.2 s.gameObjects).map bugMarker).map
      (killChain t)) ++ rest, ?_⟩
    rw [hrest, canvasOnMouseClick_gameObjects_of_running p.1 p.2 s h]
    simp only [List.map_append, List.map_map, List.append_assoc]
    congr 1

theorem foldTaps_score (taps : List (Int × Int)) :
    ∀ s : BugTapState, s.runMode = RunMode.running →
      (foldTaps taps s).score =
        s.score +
          (s.gameObjects.map (fun o => contrib o (killChain taps o))).sum := by
  induction taps with
  | nil =>
    intro s _
    have : ∀ objs : List GameObject,
        (objs.map (fun o => contrib o (killChain [] o))).sum = 0 := by
      intro objs
      induction objs with
      | nil => simp
      | cons o rest ih =>
        simp only [List.map_cons, List.sum_cons, ih]
        have : killChain [] o = o := by simp [killChain]
        rw [this, contrib_self]
    simp [foldTaps, this s.gameObjects]
  | cons p t ih =>
    intro s h
    have h1 : (canvasOnMouseClick p.1 p.2 s).runMode = RunMode.running := by
      rw [canvasOnMouseClick_runMode]; exact h
    rw [foldTaps_cons, ih (canvasOnMouseClick p.1 p.2 s) h1,
      canvasOnMouseClick_score_of_running p.1 p.2 s h,
      canvasOnMouseClick_gameObjects_of_running p.1 p.2 s h]
    have hmarkers :
        ((((hitBugs p.1 p.2 s.gameObjects).map bugMarker)).map
          (fun o => contrib o (killChain t o))).sum = 0 := by
      induction (hitBugs p.1 p.2 s.gameObjects) with
      | nil => simp
      | cons b rest ihm =>
        have hz : contrib (bugMarker b) (killChain t (bugMarker b)) = 0 :=
          rfl
        rw [List.map_cons, List.map_cons, List.sum_cons, hz, ihm]
    rw [List.map_append, List.sum_append, hmarkers, List.map_map]
    have hcomp : (s.gameObjects.map
          ((fun o => contrib o (killChain t o)) ∘ tapKill p.1 p.2)) =
        s.gameObjects.map
          (fun o => contrib (tapKill p.1 p.2 o)
            (killChain t (tapKill p.1 p.2 o))) := by
      apply List.map_congr_left
      intro o _
      simp [Function.comp]
    rw [hcomp]
    have hpt : (s.gameObjects.map
          (fun o => contrib o (killChain (p :: t) o))).sum =
        (s.gameObjects.map (fun o => contrib o (tapKill p.1 p.2 o))).sum +
          (s.gameObjects.map (fun o => contrib (tapKill p.1 p.2 o)
            (killChain t (tapKill p.1 p.2 o)))).sum := by
      rw [← sum_map_add]
      apply congrArg
      apply List.map_congr_left
      intro o _
      rw [killChain_cons, contrib_step]
    omega

/-- C3: over any sequence of taps the score is non-decreasing, and the
final score exceeds the starting score by exactly the sum of the point
values of the bugs that transitioned alive→dead across that tap sequence
(compared position by position in the active collection). -/
theorem score_monotone_and_sums_killed (s : BugTapState)
    (taps : List (Int × Int)) :
    (foldTaps taps s).score =
        s.score +
          killedPoints s.gameObjects (foldTaps taps s).gameObjects ∧
    s.score ≤ (foldTaps taps s).score := by
  by_cases h : s.runMode = RunMode.running
  · obtain ⟨rest, hrest⟩ := foldTaps_gameObjects_shape taps s h
    have hs := foldTaps_score taps s h
    constructor
    · rw [hs, hrest]
      unfold killedPoints
      rw [zipWith_contrib_map]
    · rw [hs]
      exact Nat.le_add_right _ _
  · rw [foldTaps_of_not_running taps s h]
    constructor
    · rw [killedPoints_self]
      omega
    · exact Nat.le_refl _

/-! ## Lemmas about the two timer loops -/

theorem getRandomNumber_bounds (lo hi r : Nat) (h : lo ≤ hi) :
    lo ≤ getRandomNumber lo hi r ∧ getRandomNumber lo hi r ≤ hi := by
  unfold getRandomNumber
  have h1 : r % (hi - lo + 1) < hi - lo + 1 := Nat.mod_lt r (by omega)
  omega

theorem timeTick_of_not_paused (s : BugTapState)
    (h : ¬ s.runMode = RunMode.paused) :
    timeTick s =
      ({ s with time := s.time + 1
                timeText := "Time: " ++ formatSeconds (s.time + 1)
                store := addToStore "time" (toString (s.time + 1)) s.store },
        1000) := by
  have hp : s.runMode.isPaused = false := by
    cases hm : s.runMode
    · rfl
    · rfl
    · exact absurd hm h
  simp [timeTick, hp]

theorem timeTick_of_paused (s : BugTapState)
    (h : s.runMode = RunMode.paused) : timeTick s = (s, 1000) := by
  have hp : s.runMode.isPaused = true := by simp [RunMode.isPaused, h]
  simp [timeTick, hp]

theorem timeTickState_iterate_running (k : Nat) :
    ∀ s : BugTapState, s.runMode = RunMode.running →
      (timeTickState^[k] s).runMode = RunMode.running ∧
      (timeTickState^[k] s).time = s.time + k ∧
      (0 < k → (timeTickState^[k] s).timeText =
        "Time: " ++ formatSeconds (s.time + k)) := by
  induction k with
  | zero =>
    intro s h
    exact ⟨h, by simp, fun hk => absurd hk (by omega)⟩
  | succ n ih =>
    intro s h
    obtain ⟨hrm, htime, _⟩ := ih s h
    have hnp : ¬ (timeTickState^[n] s).runMode = RunMode.paused := by
      rw [hrm]
      intro hc
      cases hc
    have hstep : timeTickState (timeTickState^[n] s) =
        { (timeTickState^[n] s) with
            time := (timeTickState^[n] s).time + 1
            timeText := "Time: " ++
              formatSeconds ((timeTickState^[n] s).time + 1)
            store := addToStore "time"
              (toString ((timeTickState^[n] s).time + 1))
              (timeTickState^[n] s).store } := by
      show (timeTick (timeTickState^[n] s)).1 = _
      rw [timeTick_of_not_paused _ hnp]
    rw [Function.iterate_succ_apply', hstep]
    refine ⟨hrm, ?_, fun _ => ?_⟩
    · simp [htime]
      omega
    · simp [htime]
      have : s.time + n + 1 = s.time + (n + 1) := by omega
      rw [this]

theorem spawnCycle_of_paused (gen : Nat → Bug) (rBugs rDelay : Nat)
    (s : BugTapState) (h : ¬ s.runMode = RunMode.running) :
    spawnCycle gen rBugs rDelay s =
      (s, getRandomNumber MIN_SPAWN_INTERVAL MAX_SPAWN_INTERVAL rDelay) := by
  have hrun : s.runMode.isRunning = false := by
    cases hm : s.runMode
    · rfl
    · exact absurd hm h
    · rfl
  simp [spawnCycle, hrun]

theorem spawnCycle_of_running_with_food (gen : Nat → Bug)
    (rBugs rDelay : Nat) (s : BugTapState)
    (hrm : s.runMode = RunMode.running) (hf : s.food ≠ []) :
    spawnCycle gen rBugs rDelay s =
      ({ s with gameObjects := s.gameObjects ++
          (List.range (getRandomNumber MIN_BUGS_TO_SPAWN MAX_BUGS_TO_SPAWN
            rBugs)).map (spawnBug gen) },
        getRandomNumber MIN_SPAWN_INTERVAL MAX_SPAWN_INTERVAL rDelay) := by
  have hrun : s.runMode.isRunning = true := by
    simp [RunMode.isRunning, hrm]
  have hlen : 0 < s.food.length := List.length_pos.mpr hf
  simp [spawnCycle, hrun, hlen]

/-- C4: while paused, a time tick leaves the whole state (elapsed time and
displayed time included) unchanged and a spawn cycle adds nothing — yet
both still produce their next scheduling delay (1000 ms for the tick, a
fresh value in `[800, 1500]` for the spawner).  Iterating the tick any
number of times while paused is still the identity.  After `resume()`, the
very next tick increments the time and the very next spawn cycle (given
food exists) adds at least one bug — the loops progress again without
being restarted. -/
theorem pause_freezes_time_and_spawns (s : BugTapState) (gen : Nat → Bug)
    (rBugs rDelay k : Nat) (h : s.runMode = RunMode.paused) :
    timeTick s = (s, 1000) ∧
    timeTickState^[k] s = s ∧
    spawnCycle gen rBugs rDelay s =
      (s, getRandomNumber MIN_SPAWN_INTERVAL MAX_SPAWN_INTERVAL rDelay) ∧
    800 ≤ (spawnCycle gen rBugs rDelay s).2 ∧
    (spawnCycle gen rBugs rDelay s).2 ≤ 1500 ∧
    (timeTickState { s with runMode := s.runMode.resumeMode }).time =
      s.time + 1 ∧
    (s.food ≠ [] →
      (spawnCycle gen rBugs rDelay
          { s with runMode := s.runMode.resumeMode }).1.gameObjects.length =
        s.gameObjects.length +
          getRandomNumber MIN_BUGS_TO_SPAWN MAX_BUGS_TO_SPAWN rBugs ∧
      1 ≤ getRandomNumber MIN_BUGS_TO_SPAWN MAX_BUGS_TO_SPAWN rBugs) := by
  have hres : s.runMode.resumeMode = RunMode.running := by
    simp [RunMode.resumeMode, h]
  have htick := timeTick_of_paused s h
  have hnp : ¬ s.runMode = RunMode.running := by rw [h]; intro hc; cases hc
  have hspawn := spawnCycle_of_paused gen rBugs rDelay s hnp
  refine ⟨htick, ?_, hspawn, ?_, ?_, ?_, ?_⟩
  · have hfix : timeTickState s = s := by
      unfold timeTickState
      rw [htick]
    exact Function.iterate_fixed hfix k
  · rw [hspawn]
    exact (getRandomNumber_bounds MIN_SPAWN_INTERVAL MAX_SPAWN_INTERVAL
      rDelay (by norm_num [MIN_SPAWN_INTERVAL, MAX_SPAWN_INTERVAL])).1
  · rw [hspawn]
    exact (getRandomNumber_bounds MIN_SPAWN_INTERVAL MAX_SPAWN_INTERVAL
      rDelay (by norm_num [MIN_SPAWN_INTERVAL, MAX_SPAWN_INTERVAL])).2
  · unfold timeTickState
    rw [timeTick_of_not_paused _ (by rw [hres]; intro hc; cases hc)]
  · intro hf
    rw [spawnCycle_of_running_with_food gen rBugs rDelay
      { s with runMode := s.runMode.resumeMode } hres hf]
    refine ⟨by simp, ?_⟩
    exact (getRandomNumber_bounds MIN_BUGS_TO_SPAWN MAX_BUGS_TO_SPAWN
      rBugs (by norm_num [MIN_BUGS_TO_SPAWN, MAX_BUGS_TO_SPAWN])).1

/-- Witness for C4: the concrete paused state is frozen — a tick returns
it unchanged (with the 1000 ms reschedule) and three iterated ticks leave
it identical. -/
theorem pause_freezes_time_and_spawns_witness :
    timeTick pausedState = (pausedState, 1000) ∧
    timeTickState^[3] pausedState = pausedState := by
  have h := pause_freezes_time_and_spawns pausedState genBug 0 0 3 rfl
  exact ⟨h.1, h.2.1⟩

/-- C5: a spawn cycle spawns `n = getRandomNumber 1 3 rBugs` bugs — with
`1 ≤ n ≤ 3`, never 0 and never more than 3 — appended to the active
collection exactly when the game is running and food exists; otherwise it
changes nothing.  Either way it draws and returns a fresh reschedule delay
`getRandomNumber 800 1500 rDelay`, which lies in `[800, 1500]`. -/
theorem spawn_cycle_spec (s : BugTapState) (gen : Nat → Bug)
    (rBugs rDelay : Nat) :
    (s.runMode = RunMode.running ∧ s.food ≠ [] →
      (spawnCycle gen rBugs rDelay s).1.gameObjects =
        s.gameObjects ++
          (List.range (getRandomNumber MIN_BUGS_TO_SPAWN MAX_BUGS_TO_SPAWN
            rBugs)).map (spawnBug gen) ∧
      (spawnCycle gen rBugs rDelay s).1.gameObjects.length =
        s.gameObjects.length +
          getRandomNumber MIN_BUGS_TO_SPAWN MAX_BUGS_TO_SPAWN rBugs ∧
      1 ≤ getRandomNumber MIN_BUGS_TO_SPAWN MAX_BUGS_TO_SPAWN rBugs ∧
      getRandomNumber MIN_BUGS_TO_SPAWN MAX_BUGS_TO_SPAWN rBugs ≤ 3) ∧
    (¬ (s.runMode = RunMode.running ∧ s.food ≠ []) →
      (spawnCycle gen rBugs rDelay s).1 = s) ∧
    (spawnCycle gen rBugs rDelay s).2 =
      getRandomNumber MIN_SPAWN_INTERVAL MAX_SPAWN_INTERVAL rDelay ∧
    800 ≤ (spawnCycle gen rBugs rDelay s).2 ∧
    (spawnCycle gen rBugs rDelay s).2 ≤ 1500 := by
  have hb := getRandomNumber_bounds MIN_BUGS_TO_SPAWN MAX_BUGS_TO_SPAWN
    rBugs (by norm_num [MIN_BUGS_TO_SPAWN, MAX_BUGS_TO_SPAWN])
  have hd := getRandomNumber_bounds MIN_SPAWN_INTERVAL MAX_SPAWN_INTERVAL
    rDelay (by norm_num [MIN_SPAWN_INTERVAL, MAX_SPAWN_INTERVAL])
  refine ⟨?_, ?_, ?_, ?_, ?_⟩
  · rintro ⟨hrm, hf⟩
    rw [spawnCycle_of_running_with_food gen rBugs rDelay s hrm hf]
    refine ⟨rfl, by simp, hb.1, hb.2⟩
  · intro hng
    by_cases hrm : s.runMode = RunMode.running
    · have hf : s.food = [] := by
        by_contra hf
        exact hng ⟨hrm, hf⟩
      have hlen : ¬ 0 < s.food.length := by simp [hf]
      simp [spawnCycle, hlen]
    · rw [spawnCycle_of_paused gen rBugs rDelay s hrm]
  · by_cases hc : (s.runMode.isRunning && decide (0 < s.food.length)) = true
    · simp [spawnCycle, hc]
    · simp [spawnCycle, Bool.eq_false_iff.mpr hc]
  · have : (spawnCycle gen rBugs rDelay s).2 =
        getRandomNumber MIN_SPAWN_INTERVAL MAX_SPAWN_INTERVAL rDelay := by
      by_cases hc : (s.runMode.isRunning && decide (0 < s.food.length)) = true
      · simp [spawnCycle, hc]
      · simp [spawnCycle, Bool.eq_false_iff.mpr hc]
    rw [this]
    exact hd.1
  · have : (spawnCycle gen rBugs rDelay s).2 =
        getRandomNumber MIN_SPAWN_INTERVAL MAX_SPAWN_INTERVAL rDelay := by
      by_cases hc : (s.runMode.isRunning && decide (0 < s.food.length)) = true
      · simp [spawnCycle, hc]
      · simp [spawnCycle, Bool.eq_false_iff.mpr hc]
    rw [this]
    exact hd.2

/-- Witness for C5: a spawn cycle on `twoBugState` (running, food exists)
with entropy 5 spawns `getRandomNumber 1 3 5 = 3` bugs: the collection
grows from 2 to 5 entities. -/
theorem spawn_cycle_spec_witness :
    (spawnCycle genBug 5 7 twoBugState).1.gameObjects.length = 5 := by
  have h := (spawn_cycle_spec twoBugState genBug 5 7).1 ⟨rfl, by decide⟩
  rw [h.2.1]
  decide

/-- C6: a pointer-down event delivered while the run mode is not Running
(Paused or NotStarted) is a silent no-op: the whole state — score, bugs,
collection, UI texts, store — is returned unchanged. -/
theorem tap_noop_when_not_running (s : BugTapState) (px py : Int)
    (h : ¬ s.runMode = RunMode.running) :
    canvasOnMouseClick px py s = s :=
  canvasOnMouseClick_of_not_running px py s h

/-- Witness for C6: tapping the concrete paused state and the concrete
not-started state changes nothing. -/
theorem tap_noop_when_not_running_witness :
    canvasOnMouseClick 3 3 pausedState = pausedState ∧
    canvasOnMouseClick 3 3 notStartedState = notStartedState :=
  ⟨tap_noop_when_not_running pausedState 3 3 (by decide),
   tap_noop_when_not_running notStartedState 3 3 (by decide)⟩

/-- C7: on a tick while not paused, `_time` is incremented by one, the
display is set to `minutes:seconds` with the seconds zero-padded to two
digits when below 10, and the raw integer is persisted under `"time"`;
`formatSeconds 65 = "1:05"`, and a running state with `_time = 0` shows
exactly `"Time: 1:05"` after 65 ticks. -/
theorem tick_increments_formats_persists (s s0 : BugTapState)
    (h : ¬ s.runMode = RunMode.paused) :
    timeTick s =
      ({ s with time := s.time + 1
                timeText := "Time: " ++ formatSeconds (s.time + 1)
                store := addToStore "time" (toString (s.time + 1)) s.store },
        1000) ∧
    formatSeconds 65 = "1:05" ∧
    (s0.runMode = RunMode.running → s0.time = 0 →
      (timeTickState^[65] s0).timeText = "Time: 1:05") := by
  refine ⟨timeTick_of_not_paused s h, by decide, ?_⟩
  intro hrm htime
  have h65 := (timeTickState_iterate_running 65 s0 hrm).2.2 (by omega)
  rw [h65, htime]
  decide

/-- Witness for C7: from `twoBugState` (running, time 0), 65 ticks display
`"Time: 1:05"`. -/
theorem tick_increments_formats_persists_witness :
    (timeTickState^[65] twoBugState).timeText = "Time: 1:05" :=
  (tick_increments_formats_persists twoBugState twoBugState
    (by decide)).2.2 rfl rfl

/-! ## Lemmas about session start -/

theorem spawnCycles_cons (gen : Nat → Bug) (p : Nat × Nat)
    (rest : List (Nat × Nat)) (s : BugTapState) :
    spawnCycles gen (p :: rest) s =
      spawnCycles gen rest ((spawnCycle gen p.1 p.2 s).1) := by
  simp [spawnCycles, List.foldl_cons]

theorem spawnCycle_of_no_food (gen : Nat → Bug) (rBugs rDelay : Nat)
    (s : BugTapState) (h : s.food = []) :
    (spawnCycle gen rBugs rDelay s).1 = s := by
  have hlen : ¬ 0 < s.food.length := by simp [h]
  simp [spawnCycle, hlen]

/-- C8: before `start()` has generated and distributed food, no spawn
cycle can ever create a bug: with the food collection empty, any number of
spawn cycles leaves the state exactly as it was — and the constructor
leaves the food collection empty, so this holds from construction until
`_initFood` runs inside the start flow. -/
theorem no_premature_spawning (prior : Store) (gen : Nat → Bug)
    (seeds : List (Nat × Nat)) (s : BugTapState) (h : s.food = []) :
    spawnCycles gen seeds s = s ∧ (bugTapConstructor prior).food = [] := by
  refine ⟨?_, rfl⟩
  induction seeds with
  | nil => rfl
  | cons p rest ih =>
    rw [spawnCycles_cons, spawnCycle_of_no_food gen p.1 p.2 s h]
    exact ih

/-- Witness for C8: two spawn cycles on the freshly constructed state
(whose food list is empty) change nothing. -/
theorem no_premature_spawning_witness :
    spawnCycles genBug [(0, 0), (4, 9)] notStartedState =
      notStartedState :=
  (no_premature_spawning clearStore genBug [(0, 0), (4, 9)]
    notStartedState rfl).1

/-- `startButtonOnClick` written with explicit intermediate states. -/
theorem startButtonOnClick_eq (generated : List Food) (gen : Nat → Bug)
    (rBugs rDelay : Nat) (s : BugTapState) :
    startButtonOnClick generated gen rBugs rDelay s =
      ((timeTick ((spawnCycle gen rBugs rDelay
          (initFood generated
            { s with runMode := s.runMode.startMode })).1)).1,
       (spawnCycle gen rBugs rDelay
          (initFood generated { s with runMode := s.runMode.startMode })).2,
       (timeTick ((spawnCycle gen rBugs rDelay
          (initFood generated
            { s with runMode := s.runMode.startMode })).1)).2) := rfl

theorem spawnCycle_store (gen : Nat → Bug) (rBugs rDelay : Nat)
    (s : BugTapState) : ((spawnCycle gen rBugs rDelay s).1).store =
      s.store := by
  by_cases hc : (s.runMode.isRunning && decide (0 < s.food.length)) = true
  · simp [spawnCycle, hc]
  · simp [spawnCycle, Bool.eq_false_iff.mpr hc]

theorem spawnCycle_time (gen : Nat → Bug) (rBugs rDelay : Nat)
    (s : BugTapState) : ((spawnCycle gen rBugs rDelay s).1).time =
      s.time := by
  by_cases hc : (s.runMode.isRunning && decide (0 < s.food.length)) = true
  · simp [spawnCycle, hc]
  · simp [spawnCycle, Bool.eq_false_iff.mpr hc]

theorem spawnCycle_runMode (gen : Nat → Bug) (rBugs rDelay : Nat)
    (s : BugTapState) : ((spawnCycle gen rBugs rDelay s).1).runMode =
      s.runMode := by
  by_cases hc : (s.runMode.isRunning && decide (0 < s.food.length)) = true
  · simp [spawnCycle, hc]
  · simp [spawnCycle, Bool.eq_false_iff.mpr hc]

/-- Counterexample to C9: the start flow contains no store-clearing step.
Invoking it on a state whose store still holds a stale `"score"` entry
leaves that entry in place (and the store non-empty): it is the
constructor, not `start()`, that calls `clearStore()`. -/
theorem start_button_does_not_clear_store :
    ((startButtonOnClick [⟨50, 50⟩] genBug 0 0
        staleStoreState).1.store.lookupKey "score" = some "999") ∧
    ((startButtonOnClick [⟨50, 50⟩] genBug 0 0
        staleStoreState).1.store.entries ≠ []) := by
  decide

/-- C9 as amended: the persistent store is cleared by the constructor, not
by `start()`; because no writes happen between construction and the start
click, the store holds no stale entries when the session's writes begin —
after the start click it contains exactly the first time write
`("time", "1")`. -/
theorem constructor_clears_store_for_fresh_session (prior : Store)
    (generated : List Food) (gen : Nat → Bug) (rBugs rDelay : Nat) :
    (bugTapConstructor prior).store.entries = [] ∧
    (startButtonOnClick generated gen rBugs rDelay
        (bugTapConstructor prior)).1.store.entries = [("time", "1")] := by
  refine ⟨rfl, ?_⟩
  rw [startButtonOnClick_eq]
  have hs2rm : (initFood generated
      { bugTapConstructor prior with
          runMode := (bugTapConstructor prior).runMode.startMode }).runMode =
      RunMode.running := rfl
  have hs3 := spawnCycle_runMode gen rBugs rDelay
    (initFood generated
      { bugTapConstructor prior with
          runMode := (bugTapConstructor prior).runMode.startMode })
  have hnp : ¬ ((spawnCycle gen rBugs rDelay
      (initFood generated
        { bugTapConstructor prior with
            runMode :=
              (bugTapConstructor prior).runMode.startMode })).1).runMode =
      RunMode.paused := by
    rw [hs3, hs2rm]
    intro hc
    cases hc
  rw [timeTick_of_not_paused _ hnp]
  simp only [spawnCycle_store, spawnCycle_time]
  simp [initFood, bugTapConstructor, addToStore, clearStore]
  decide

/-- C10: the pause-toggle handler (shared by the pause button and the
Space key) calls `resume()` exactly when the game is paused and `pause()`
in every other run mode — it is not guarded on the game being Running, so
triggering it while NotStarted also calls `pause()`. -/
theorem pause_toggle_is_unguarded (s : BugTapState) :
    (s.runMode = RunMode.paused →
      (pauseButtonOnClick s).2 = ToggleCall.calledResume) ∧
    (¬ s.runMode = RunMode.paused →
      (pauseButtonOnClick s).2 = ToggleCall.calledPause) ∧
    (pauseButtonOnClick { s with runMode := RunMode.notStarted }).2 =
      ToggleCall.calledPause ∧
    onKeyDown "Space" s =
      ((pauseButtonOnClick s).1, some (pauseButtonOnClick s).2) := by
  refine ⟨?_, ?_, ?_, ?_⟩
  · intro h
    simp [pauseButtonOnClick, RunMode.isPaused, h]
  · intro h
    have hp : s.runMode.isPaused = false := by
      cases hm : s.runMode
      · rfl
      · rfl
      · exact absurd hm h
    simp [pauseButtonOnClick, hp]
  · simp [pauseButtonOnClick, RunMode.isPaused]
  · simp [onKeyDown]

/-- Witness for C10: on the freshly constructed (NotStarted) state the
toggle calls `pause()`, and on the paused state it calls `resume()`. -/
theorem pause_toggle_is_unguarded_witness :
    (pauseButtonOnClick notStartedState).2 = ToggleCall.calledPause ∧
    (pauseButtonOnClick pausedState).2 = ToggleCall.calledResume :=
  ⟨(pause_toggle_is_unguarded notStartedState).2.1 (by decide),
   (pause_toggle_is_unguarded pausedState).1 rfl⟩

end TapTapBug
